import Mathlib

/-!
Verification of the trending-video ingestion and feature-derivation pipeline of
`youtube_analysis_streamlit.py`.  The script's pure functions are embedded as
Lean functions.  The external YouTube API is modelled as the list of pages it
serves, and the external `isodate.parse_duration` as the parsed duration value
it returns: a span of days, hours, minutes and whole seconds plus a sub-second
part in milliseconds.  Timestamps are modelled as minutes since the Unix epoch
(1970-01-01 00:00 UTC, a Thursday); the pipeline's fixed target timezone
Asia/Kolkata is the constant offset UTC+5:30 throughout the modern era.
-/

/-- Value of a list of decimal digit characters read left to right, as Python
`int` computes it on a string of digits: digitsVal of `75` is the number 75. -/
def digitsVal (l : List Char) : Nat :=
  l.foldl (fun a c => a * 10 + (c.toNat - 48)) 0

/-- Python `int(s)` on the digit-string fragment of its domain: succeeds on a
nonempty string of decimal digits, raises (modelled as `none`) otherwise. -/
def parseNat (l : List Char) : Option Nat :=
  if !l.isEmpty && l.all Char.isDigit then some (digitsVal l) else none

/-- Python `split` on the colon character: splitColon of the empty list is a
single empty field, matching the behaviour of `split` on an empty string. -/
def splitColon : List Char → List (List Char)
  | [] => [[]]
  | c :: rest =>
    if c = ':' then [] :: splitColon rest
    else
      match splitColon rest with
      | [] => [[c]]
      | h :: t => (c :: h) :: t

/-- Decimal digits of a natural number, most significant first, with
structural fuel so that concrete values reduce definitionally; the fuel is
never exhausted when it exceeds the number (see `natDigits_unfold`). -/
def natDigitsAux : Nat → Nat → List Char
  | 0, _ => []
  | fuel + 1, n =>
    if n < 10 then [Nat.digitChar n]
    else natDigitsAux fuel (n / 10) ++ [Nat.digitChar (n % 10)]

/-- Decimal rendering of a natural number, as Python renders a nonnegative
integer: no sign, no padding, no leading zero except for zero itself. -/
def natDigits (n : Nat) : List Char :=
  natDigitsAux (n + 1) n

/-- Python two-digit zero-padded formatting of a natural number (the `02d`
format spec): a single leading zero below ten, plain digits otherwise. -/
def format02d (n : Nat) : List Char :=
  if n < 10 then '0' :: natDigits n else natDigits n

/-- A parsed ISO-8601 duration, the value `isodate.parse_duration` (an external
library) returns: a nonnegative span with a sub-second part in milliseconds. -/
structure IsoDuration where
  days : Nat
  hours : Nat
  minutes : Nat
  seconds : Nat
  millis : Nat
deriving DecidableEq, Repr

/-- Total length of the duration in milliseconds. -/
def IsoDuration.totalMilliseconds (d : IsoDuration) : Nat :=
  (((d.days * 24 + d.hours) * 60 + d.minutes) * 60 + d.seconds) * 1000 + d.millis

/-- The floor of the duration's `total_seconds()` value: for a nonnegative
duration, truncating the fractional part is the floor. -/
def IsoDuration.floorSeconds (d : IsoDuration) : Nat :=
  d.totalMilliseconds / 1000

/-- `convert_duration`: formats an ISO-8601 duration in minutes-colon-seconds
form.  The source computes `mins` as the truncation of `total_sec` divided by
60 and `secs` as the truncation of `total_sec` modulo 60; for a nonnegative
duration these equal `floorSeconds` divided by 60 and `floorSeconds` modulo
60, and the result is the minutes digits, a colon, and the seconds under the
two-digit zero-padding format spec. -/
def convert_duration (d : IsoDuration) : String :=
  String.mk (natDigits (d.floorSeconds / 60) ++ ':' :: format02d (d.floorSeconds % 60))

/-- `duration_to_seconds`: splits the string on colons, requires exactly two
integer fields (the tuple unpacking of `map(int, ...)` raises otherwise,
modelled as `none`), and returns minutes times 60 plus seconds. -/
def duration_to_seconds (s : String) : Option Nat :=
  match splitColon s.data with
  | [a, b] =>
    match parseNat a, parseNat b with
    | some m, some secs => some (m * 60 + secs)
    | _, _ => none
  | _ => none

/-- The `video_length` lambda: compares `duration_to_seconds` of the record's
display duration against `duration_to_seconds` of the string "7:00"; a parse
failure in either raises, modelled as `none`. -/
def video_length (x : String) : Option String :=
  match duration_to_seconds x, duration_to_seconds "7:00" with
  | some a, some b => some (if a < b then "short" else "long")
  | _, _ => none

/-- The `description_type` lambda: "short" when at most 300, else "medium"
when strictly between 300 and 1500, else "long". -/
def description_type (x : Nat) : String :=
  if x ≤ 300 then "short" else if 300 < x ∧ x < 1500 then "medium" else "long"

/-- The `time_slot` lambda over the local publish hour: "Morning" on hours in
[5,12), "Noon" on [12,17), "Night" otherwise. -/
def time_slot (x : Nat) : String :=
  if 5 ≤ x ∧ x < 12 then "Morning" else if 12 ≤ x ∧ x < 17 then "Noon" else "Night"

/-- The `week` lambda over the local day-of-week index with Monday as 0:
"Weekend" on indices at least 5, "Weekday" otherwise. -/
def week (x : Nat) : String :=
  if x ≥ 5 then "Weekend" else "Weekday"

/-- The timezone conversion `tz_convert` to Asia/Kolkata: a fixed offset of
330 minutes added to the UTC timestamp. -/
def toKolkataMinutes (utcMin : Nat) : Nat := utcMin + 330

/-- Day-of-week index (Monday = 0) of a timestamp in minutes since the epoch;
the epoch day is a Thursday, index 3. -/
def dayOfWeekOfMinutes (t : Nat) : Nat := (t / 1440 + 3) % 7

/-- Hour of day of a timestamp in minutes since the epoch. -/
def hourOfMinutes (t : Nat) : Nat := t / 60 % 24

/-- Day-of-week index the pipeline uses: taken after conversion to
Asia/Kolkata, never from the raw UTC timestamp. -/
def localDayOfWeek (utcMin : Nat) : Nat := dayOfWeekOfMinutes (toKolkataMinutes utcMin)

/-- Local publish hour the pipeline uses: taken after conversion to
Asia/Kolkata. -/
def localHour (utcMin : Nat) : Nat := hourOfMinutes (toKolkataMinutes utcMin)

/-- The `week` column of a record published at the given UTC minute. -/
def weekOfUtc (utcMin : Nat) : String := week (localDayOfWeek utcMin)

/-- The `time_slot` column of a record published at the given UTC minute. -/
def timeSlotOfUtc (utcMin : Nat) : String := time_slot (localHour utcMin)

/-- The optional `statistics` fields of one raw API item; `none` models a key
absent from the response object. -/
structure Statistics where
  viewCount : Option Nat
  likeCount : Option Nat
  dislikeCount : Option Nat
  favoriteCount : Option Nat
  commentCount : Option Nat
deriving DecidableEq, Repr

/-- One raw item of a page of the videos listing response. -/
structure RawItem where
  id : String
  title : String
  description : String
  publishedAt : String
  channelId : String
  channelTitle : String
  categoryId : String
  tags : Option (List String)
  duration : String
  definition : String
  caption : Option String
  statistics : Statistics
deriving DecidableEq, Repr

/-- One flattened record, the `video_details` dictionary the fetch loop
builds per item. -/
structure VideoRecord where
  video_id : String
  title : String
  description : String
  published_at : String
  channel_id : String
  channel_title : String
  category_id : String
  tags : List String
  duration : String
  definition : String
  caption : String
  view_count : Nat
  like_count : Nat
  dislike_count : Nat
  favorite_count : Nat
  comment_count : Nat
deriving DecidableEq, Repr

/-- Builds `video_details` from one raw item: the dictionary `get` calls with
a default become `Option.getD`. -/
def extractItem (it : RawItem) : VideoRecord where
  video_id := it.id
  title := it.title
  description := it.description
  published_at := it.publishedAt
  channel_id := it.channelId
  channel_title := it.channelTitle
  category_id := it.categoryId
  tags := it.tags.getD []
  duration := it.duration
  definition := it.definition
  caption := it.caption.getD "false"
  view_count := it.statistics.viewCount.getD 0
  like_count := it.statistics.likeCount.getD 0
  dislike_count := it.statistics.dislikeCount.getD 0
  favorite_count := it.statistics.favoriteCount.getD 0
  comment_count := it.statistics.commentCount.getD 0

/-- The fetch loop of `get_trending_videos`: while a continuation remains and
fewer than `maxResults` records are accumulated, append every item of the
current page and advance; the list of remaining pages models the continuation
cursor, the empty list an exhausted cursor. -/
def fetchLoop (maxResults : Nat) : List (List RawItem) → List VideoRecord → List VideoRecord
  | [], acc => acc
  | page :: rest, acc =>
    if acc.length < maxResults then fetchLoop maxResults rest (acc ++ page.map extractItem)
    else acc

/-- `get_trending_videos`, with the external API modelled as the list of pages
it would serve: runs the fetch loop from an empty accumulator, then truncates
to the first `maxResults` records. -/
def get_trending_videos (pages : List (List RawItem)) (maxResults : Nat := 200) :
    List VideoRecord :=
  (fetchLoop maxResults pages []).take maxResults

/-- A raw item whose optional fields are all absent, as in a response that
omits every statistics key. -/
def emptyStatsItem : RawItem where
  id := "vid0"
  title := "t"
  description := "d"
  publishedAt := "2024-01-01T00:00:00Z"
  channelId := "c"
  channelTitle := "ct"
  categoryId := "10"
  tags := none
  duration := "PT1M"
  definition := "hd"
  caption := none
  statistics :=
    { viewCount := none, likeCount := none, dislikeCount := none
      favoriteCount := none, commentCount := none }

/-! ### Helper lemmas about decimal rendering and parsing -/

lemma digitChar_isDigit {d : Nat} (h : d < 10) : (Nat.digitChar d).isDigit = true := by
  interval_cases d <;> decide

lemma digitChar_ne_colon {d : Nat} (h : d < 10) : Nat.digitChar d ≠ ':' := by
  interval_cases d <;> decide

lemma digitChar_toNat {d : Nat} (h : d < 10) : (Nat.digitChar d).toNat = 48 + d := by
  interval_cases d <;> decide

lemma natDigitsAux_congr : ∀ f₁ f₂ m, m < f₁ → m < f₂ →
    natDigitsAux f₁ m = natDigitsAux f₂ m := by
  intro f₁
  induction f₁ with
  | zero => intro f₂ m h1 _; omega
  | succ f ih =>
    intro f₂ m h1 h2
    cases f₂ with
    | zero => omega
    | succ g =>
      simp only [natDigitsAux]
      split
      · rfl
      · next hm => rw [ih g (m / 10) (by omega) (by omega)]

lemma natDigits_unfold (n : Nat) : natDigits n =
    if n < 10 then [Nat.digitChar n] else natDigits (n / 10) ++ [Nat.digitChar (n % 10)] := by
  show natDigitsAux (n + 1) n = _
  simp only [natDigitsAux]
  split
  · rfl
  · next h =>
    rw [natDigitsAux_congr n (n / 10 + 1) (n / 10) (by omega) (by omega)]
    rfl

lemma natDigits_ne_nil (n : Nat) : natDigits n ≠ [] := by
  rw [natDigits_unfold]
  split <;> simp

lemma natDigits_all_digit (n : Nat) : ∀ c ∈ natDigits n, c.isDigit = true := by
  induction n using Nat.strong_induction_on with
  | _ n ih =>
    rw [natDigits_unfold]
    split
    · next h =>
      intro c hc
      simp only [List.mem_singleton] at hc
      subst hc
      exact digitChar_isDigit h
    · next h =>
      intro c hc
      rcases List.mem_append.mp hc with hc | hc
      · exact ih (n / 10) (by omega) c hc
      · simp only [List.mem_singleton] at hc
        subst hc
        exact digitChar_isDigit (Nat.mod_lt _ (by omega))

lemma natDigits_ne_colon (n : Nat) : ∀ c ∈ natDigits n, c ≠ ':' := by
  intro c hc he
  have := natDigits_all_digit n c hc
  subst he
  simp at this

lemma digitsVal_append_singleton (l : List Char) (c : Char) :
    digitsVal (l ++ [c]) = digitsVal l * 10 + (c.toNat - 48) := by
  simp [digitsVal, List.foldl_append]

lemma digitsVal_natDigits (n : Nat) : digitsVal (natDigits n) = n := by
  induction n using Nat.strong_induction_on with
  | _ n ih =>
    rw [natDigits_unfold]
    split
    · next h =>
      simp [digitsVal, digitChar_toNat h]
    · next h =>
      rw [digitsVal_append_singleton, ih (n / 10) (by omega),
        digitChar_toNat (Nat.mod_lt _ (by omega))]
      omega

lemma parseNat_natDigits (n : Nat) : parseNat (natDigits n) = some n := by
  have h1 : (natDigits n).isEmpty = false := by
    cases hn : natDigits n with
    | nil => exact absurd hn (natDigits_ne_nil n)
    | cons a l => rfl
  have h2 : (natDigits n).all Char.isDigit = true :=
    List.all_eq_true.mpr (natDigits_all_digit n)
  simp [parseNat, h1, h2, digitsVal_natDigits]

lemma format02d_parse (n : Nat) : parseNat (format02d n) = some n := by
  rw [format02d]
  split
  · have hall : ∀ c ∈ ('0' :: natDigits n), c.isDigit = true := by
      intro c hc
      rcases List.mem_cons.mp hc with h | h
      · subst h; decide
      · exact natDigits_all_digit n c h
    have hval : digitsVal ('0' :: natDigits n) = digitsVal (natDigits n) := by
      simp only [digitsVal, List.foldl_cons]
      rw [show 0 * 10 + ('0'.toNat - 48) = 0 from rfl]
    simp [parseNat, List.all_eq_true.mpr hall, hval, digitsVal_natDigits]
  · exact parseNat_natDigits n

lemma format02d_ne_colon (n : Nat) : ∀ c ∈ format02d n, c ≠ ':' := by
  rw [format02d]
  split
  · intro c hc
    rcases List.mem_cons.mp hc with h | h
    · subst h; decide
    · exact natDigits_ne_colon n c h
  · exact natDigits_ne_colon n

lemma splitColon_of_no_colon (l : List Char) (h : ∀ c ∈ l, c ≠ ':') :
    splitColon l = [l] := by
  induction l with
  | nil => rfl
  | cons a rest ih =>
    simp only [splitColon]
    rw [if_neg (h a (List.mem_cons_self a rest)), ih (fun c hc => h c (List.mem_cons_of_mem a hc))]

lemma splitColon_append (a b : List Char) (h : ∀ c ∈ a, c ≠ ':') :
    splitColon (a ++ ':' :: b) = a :: splitColon b := by
  induction a with
  | nil => simp [splitColon]
  | cons x rest ih =>
    show splitColon (x :: (rest ++ ':' :: b)) = (x :: rest) :: splitColon b
    simp only [splitColon]
    rw [if_neg (h x (List.mem_cons_self x rest)), ih (fun c hc => h c (List.mem_cons_of_mem x hc))]

lemma duration_to_seconds_two_fields (a b : List Char) (m s : Nat)
    (ha : ∀ c ∈ a, c ≠ ':') (hb : ∀ c ∈ b, c ≠ ':')
    (pa : parseNat a = some m) (pb : parseNat b = some s) :
    duration_to_seconds (String.mk (a ++ ':' :: b)) = some (m * 60 + s) := by
  show (match splitColon (a ++ ':' :: b) with
    | [a, b] =>
      match parseNat a, parseNat b with
      | some m, some secs => some (m * 60 + secs)
      | _, _ => none
    | _ => none) = some (m * 60 + s)
  rw [splitColon_append a b ha, splitColon_of_no_colon b hb]
  simp only [pa, pb]

lemma duration_to_seconds_convert (d : IsoDuration) :
    duration_to_seconds (convert_duration d) = some d.floorSeconds := by
  rw [convert_duration,
    duration_to_seconds_two_fields (natDigits (d.floorSeconds / 60))
      (format02d (d.floorSeconds % 60)) (d.floorSeconds / 60) (d.floorSeconds % 60)
      (natDigits_ne_colon _) (format02d_ne_colon _)
      (parseNat_natDigits _) (format02d_parse _)]
  exact congrArg some (by omega)

/-! ### Claim theorems -/

/-- C1: for every ISO-8601 duration whose total is a whole number of seconds,
`duration_to_seconds` applied to `convert_duration` of the duration returns
exactly its total seconds (which is the floor, the sub-second part being
zero): the display and parse directions round-trip. -/
theorem claim_C1_duration_round_trip (d : IsoDuration) (h : d.millis = 0) :
    duration_to_seconds (convert_duration d) =
      some (((d.days * 24 + d.hours) * 60 + d.minutes) * 60 + d.seconds) := by
  rw [duration_to_seconds_convert]
  rw [IsoDuration.floorSeconds, IsoDuration.totalMilliseconds, h]
  exact congrArg some (by omega)

/-- Witness for C1 at the concrete duration PT1H5M9S. -/
theorem claim_C1_duration_round_trip_witness :
    duration_to_seconds (convert_duration ⟨0, 1, 5, 9, 0⟩) = some 3909 :=
  claim_C1_duration_round_trip ⟨0, 1, 5, 9, 0⟩ rfl

/-- C8: `convert_duration` renders minutes with no leading zero and no upper
bound, a colon, and two-digit zero-padded seconds: the zero duration renders
as "0:00", PT7M0S as "7:00", and PT1H5M9S as "65:09" with the hour folded
into the minutes. -/
theorem claim_C8_convert_duration_format :
    convert_duration ⟨0, 0, 0, 0, 0⟩ = "0:00" ∧
    convert_duration ⟨0, 0, 7, 0, 0⟩ = "7:00" ∧
    convert_duration ⟨0, 1, 5, 9, 0⟩ = "65:09" := by
  refine ⟨by decide, by decide, by decide⟩

/-- C9: for every nonnegative duration, the string `convert_duration`
produces contains exactly one colon, splits into two fields whose seconds
field parses to a value below 60, and therefore lies in the domain of
`duration_to_seconds`: the composition never fails. -/
theorem claim_C9_composition_total (d : IsoDuration) :
    ((convert_duration d).data.count ':') = 1 ∧
    splitColon (convert_duration d).data =
      [natDigits (d.floorSeconds / 60), format02d (d.floorSeconds % 60)] ∧
    parseNat (format02d (d.floorSeconds % 60)) = some (d.floorSeconds % 60) ∧
    d.floorSeconds % 60 < 60 ∧
    duration_to_seconds (convert_duration d) = some d.floorSeconds := by
  refine ⟨?_, ?_, format02d_parse _, Nat.mod_lt _ (by omega), duration_to_seconds_convert d⟩
  · show (natDigits (d.floorSeconds / 60) ++ ':' :: format02d (d.floorSeconds % 60)).count ':' = 1
    rw [List.count_append]
    have h1 : (natDigits (d.floorSeconds / 60)).count ':' = 0 :=
      List.count_eq_zero.mpr (fun hm => natDigits_ne_colon _ ':' hm rfl)
    have h2 : (format02d (d.floorSeconds % 60)).count ':' = 0 :=
      List.count_eq_zero.mpr (fun hm => format02d_ne_colon _ ':' hm rfl)
    rw [h1, List.count_cons, h2]
    decide
  · show splitColon (natDigits (d.floorSeconds / 60) ++ ':' :: format02d (d.floorSeconds % 60)) = _
    rw [splitColon_append _ _ (natDigits_ne_colon _),
      splitColon_of_no_colon _ (format02d_ne_colon _)]

/-- C10: `duration_to_seconds` performs no canonical-form validation: on the
string made of the digits of m, a colon, and the digits of s it returns
m * 60 + s for every pair of naturals, even when s is 60 or more; in
particular "5:75" parses to 375. -/
theorem claim_C10_no_validation :
    (∀ m s : Nat, duration_to_seconds (String.mk (natDigits m ++ ':' :: natDigits s)) =
      some (m * 60 + s)) ∧
    duration_to_seconds "5:75" = some 375 := by
  refine ⟨?_, by decide⟩
  intro m s
  exact duration_to_seconds_two_fields (natDigits m) (natDigits s) m s
    (natDigits_ne_colon m) (natDigits_ne_colon s)
    (parseNat_natDigits m) (parseNat_natDigits s)

/-- C4: `description_type` is "short" exactly on lengths at most 300,
"medium" exactly on lengths strictly between 300 and 1500, and "long" exactly
on lengths at least 1500; in particular 300 gives "short", 301 and 1499 give
"medium", and 1500 gives "long". -/
theorem claim_C4_description_type (x : Nat) :
    (description_type x = "short" ↔ x ≤ 300) ∧
    (description_type x = "medium" ↔ 300 < x ∧ x < 1500) ∧
    (description_type x = "long" ↔ 1500 ≤ x) ∧
    description_type 300 = "short" ∧ description_type 301 = "medium" ∧
    description_type 1499 = "medium" ∧ description_type 1500 = "long" := by
  refine ⟨?_, ?_, ?_, by decide, by decide, by decide, by decide⟩
  · constructor
    · intro h
      by_contra hx
      rw [description_type, if_neg hx] at h
      split at h <;> exact absurd h (by decide)
    · intro h
      rw [description_type, if_pos h]
  · constructor
    · intro h
      by_contra hx
      rw [description_type] at h
      by_cases h1 : x ≤ 300
      · rw [if_pos h1] at h
        exact absurd h (by decide)
      · rw [if_neg h1, if_neg hx] at h
        exact absurd h (by decide)
    · intro h
      rw [description_type, if_neg (by omega), if_pos h]
  · constructor
    · intro h
      rw [description_type] at h
      by_cases h1 : x ≤ 300
      · rw [if_pos h1] at h
        exact absurd h (by decide)
      · by_cases h2 : 300 < x ∧ x < 1500
        · rw [if_neg h1, if_pos h2] at h
          exact absurd h (by decide)
        · omega
    · intro h
      rw [description_type, if_neg (by omega), if_neg (by omega)]

/-- C5: the `video_length` feature of a record is "short" exactly when the
record's duration is strictly below 420 seconds and "long" exactly otherwise;
the display durations "7:00" and "6:59" classify as "long" and "short". -/
theorem claim_C5_video_length :
    (∀ d : IsoDuration,
      (video_length (convert_duration d) = some "short" ↔ d.floorSeconds < 420) ∧
      (video_length (convert_duration d) = some "long" ↔ 420 ≤ d.floorSeconds)) ∧
    video_length "7:00" = some "long" ∧ video_length "6:59" = some "short" := by
  refine ⟨?_, by decide, by decide⟩
  intro d
  have h420 : duration_to_seconds "7:00" = some 420 := by decide
  have h : video_length (convert_duration d) =
      some (if d.floorSeconds < 420 then "short" else "long") := by
    rw [video_length]
    simp only [duration_to_seconds_convert, h420]
  rw [h]
  constructor
  · constructor
    · intro he
      by_contra hx
      rw [if_neg hx] at he
      exact absurd he (by decide)
    · intro hlt
      rw [if_pos hlt]
  · constructor
    · intro he
      by_contra hx
      rw [if_pos (by omega)] at he
      exact absurd he (by decide)
    · intro hge
      rw [if_neg (by omega)]

/-- C6: the `time_slot` column is `time_slot` of the Kolkata-local publish
hour, and over that hour h it is "Morning" exactly on [5,12), "Noon" exactly
on [12,17), and "Night" exactly otherwise; the boundary hours 4, 5, 11, 12,
16, 17 and 23 classify as Night, Morning, Morning, Noon, Noon, Night and
Night. -/
theorem claim_C6_time_slot :
    (∀ t : Nat, timeSlotOfUtc t = time_slot (localHour t)) ∧
    (∀ h : Nat,
      (time_slot h = "Morning" ↔ 5 ≤ h ∧ h < 12) ∧
      (time_slot h = "Noon" ↔ 12 ≤ h ∧ h < 17) ∧
      (time_slot h = "Night" ↔ ¬(5 ≤ h ∧ h < 12) ∧ ¬(12 ≤ h ∧ h < 17))) ∧
    time_slot 4 = "Night" ∧ time_slot 5 = "Morning" ∧ time_slot 11 = "Morning" ∧
    time_slot 12 = "Noon" ∧ time_slot 16 = "Noon" ∧ time_slot 17 = "Night" ∧
    time_slot 23 = "Night" := by
  refine ⟨fun t => rfl, ?_, by decide, by decide, by decide, by decide, by decide,
    by decide, by decide⟩
  intro h
  refine ⟨⟨?_, ?_⟩, ⟨?_, ?_⟩, ⟨?_, ?_⟩⟩
  · intro he
    by_contra hx
    rw [time_slot, if_neg hx] at he
    split at he <;> exact absurd he (by decide)
  · intro hx
    rw [time_slot, if_pos hx]
  · intro he
    by_contra hx
    rw [time_slot] at he
    by_cases h1 : 5 ≤ h ∧ h < 12
    · rw [if_pos h1] at he
      exact absurd he (by decide)
    · rw [if_neg h1, if_neg hx] at he
      exact absurd he (by decide)
  · intro hx
    rw [time_slot, if_neg (by omega), if_pos hx]
  · intro he
    rw [time_slot] at he
    by_cases h1 : 5 ≤ h ∧ h < 12
    · rw [if_pos h1] at he
      exact absurd he (by decide)
    · by_cases h2 : 12 ≤ h ∧ h < 17
      · rw [if_neg h1, if_pos h2] at he
        exact absurd he (by decide)
      · exact ⟨h1, h2⟩
  · intro hx
    rw [time_slot, if_neg hx.1, if_neg hx.2]

/-- C7: the `week` column is "Weekend" exactly when the day-of-week index
(Monday = 0) of the publish timestamp after conversion from UTC to the fixed
Asia/Kolkata timezone is at least 5 and "Weekday" exactly otherwise, and
there is a timestamp whose raw UTC weekday is a weekday while the converted
weekday is a weekend day and the pipeline labels it "Weekend": the weekday is
taken from the converted timestamp, not the raw UTC one. -/
theorem claim_C7_week :
    (∀ t : Nat, weekOfUtc t = "Weekend" ↔ 5 ≤ localDayOfWeek t) ∧
    (∀ t : Nat, weekOfUtc t = "Weekday" ↔ localDayOfWeek t < 5) ∧
    (∃ t : Nat, dayOfWeekOfMinutes t < 5 ∧ 5 ≤ localDayOfWeek t ∧
      weekOfUtc t = "Weekend") := by
  refine ⟨?_, ?_, ⟨2640, by decide, by decide, by decide⟩⟩
  · intro t
    rw [weekOfUtc, week]
    constructor
    · intro h
      by_contra hx
      rw [if_neg hx] at h
      exact absurd h (by decide)
    · intro h
      rw [if_pos h]
  · intro t
    rw [weekOfUtc, week]
    constructor
    · intro h
      by_contra hx
      rw [if_pos (by omega)] at h
      exact absurd h (by decide)
    · intro h
      rw [if_neg (by omega)]

lemma fetchLoop_take (maxResults : Nat) :
    ∀ (pages : List (List RawItem)) (acc : List VideoRecord),
    (fetchLoop maxResults pages acc).take maxResults =
      (acc ++ (pages.map (fun p => p.map extractItem)).flatten).take maxResults := by
  intro pages
  induction pages with
  | nil =>
    intro acc
    simp [fetchLoop]
  | cons p rest ih =>
    intro acc
    rw [fetchLoop]
    split
    · rw [ih]
      simp [List.append_assoc]
    · next h =>
      have hlen : maxResults ≤ (acc ++ p.map extractItem).length := by
        rw [List.length_append]
        omega
      rw [List.map_cons, List.flatten_cons, ← List.append_assoc,
        List.take_append_of_le_length hlen,
        List.take_append_of_le_length (by omega)]

/-- C2: for every modelled API page sequence and every maximum result count,
`get_trending_videos` is the truncation to `maxResults` of the in-order
flattening of the pages (the platform's trending-rank order), so it returns
at most `maxResults` records; and when the platform has only k < maxResults
items in total it returns exactly those k records, no error and no padding. -/
theorem claim_C2_fetch_truncation (pages : List (List RawItem)) (maxResults : Nat) :
    get_trending_videos pages maxResults =
      ((pages.map (fun p => p.map extractItem)).flatten).take maxResults ∧
    (get_trending_videos pages maxResults).length ≤ maxResults ∧
    (((pages.map (fun p => p.map extractItem)).flatten).length < maxResults →
      get_trending_videos pages maxResults =
        (pages.map (fun p => p.map extractItem)).flatten) := by
  have h1 : get_trending_videos pages maxResults =
      ((pages.map (fun p => p.map extractItem)).flatten).take maxResults := by
    rw [get_trending_videos, fetchLoop_take]
    rfl
  refine ⟨h1, ?_, ?_⟩
  · rw [h1, List.length_take]
    exact Nat.min_le_left _ _
  · intro hlen
    rw [h1, List.take_of_length_le (Nat.le_of_lt hlen)]

/-- Witness for C2: a platform with a single page of three items and a
requested maximum of ten yields exactly those three records. -/
theorem claim_C2_fetch_truncation_witness :
    get_trending_videos [[emptyStatsItem, emptyStatsItem, emptyStatsItem]] 10 =
      (([[emptyStatsItem, emptyStatsItem, emptyStatsItem]].map
        (fun p => p.map extractItem)).flatten) :=
  (claim_C2_fetch_truncation [[emptyStatsItem, emptyStatsItem, emptyStatsItem]] 10).2.2
    (by decide)

/-- C3: a raw item missing any of the five statistics keys still yields a
record, with the corresponding count field 0; in particular the fetch of a
page holding only such an item succeeds and produces exactly its record. -/
theorem claim_C3_missing_statistics (it : RawItem) :
    (it.statistics.viewCount = none → (extractItem it).view_count = 0) ∧
    (it.statistics.likeCount = none → (extractItem it).like_count = 0) ∧
    (it.statistics.dislikeCount = none → (extractItem it).dislike_count = 0) ∧
    (it.statistics.favoriteCount = none → (extractItem it).favorite_count = 0) ∧
    (it.statistics.commentCount = none → (extractItem it).comment_count = 0) ∧
    get_trending_videos [[it]] 200 = [extractItem it] := by
  refine ⟨fun h => ?_, fun h => ?_, fun h => ?_, fun h => ?_, fun h => ?_, rfl⟩ <;>
    simp [extractItem, h]

/-- Witness for C3 at a concrete item with every statistics key absent. -/
theorem claim_C3_missing_statistics_witness :
    (extractItem emptyStatsItem).view_count = 0 ∧
    (extractItem emptyStatsItem).like_count = 0 ∧
    (extractItem emptyStatsItem).dislike_count = 0 ∧
    (extractItem emptyStatsItem).favorite_count = 0 ∧
    (extractItem emptyStatsItem).comment_count = 0 :=
  ⟨(claim_C3_missing_statistics emptyStatsItem).1 rfl,
    (claim_C3_missing_statistics emptyStatsItem).2.1 rfl,
    (claim_C3_missing_statistics emptyStatsItem).2.2.1 rfl,
    (claim_C3_missing_statistics emptyStatsItem).2.2.2.1 rfl,
    (claim_C3_missing_statistics emptyStatsItem).2.2.2.2.1 rfl⟩
